import Mathlib

/-!
Verification of the PocketArk client interception/proxy bundle.

The Rust sources are shallowly embedded: text manipulation is done over
`List Char`, byte buffers over `List Nat`, and each request handler becomes a
pure function of its inputs, with the network boundary (sockets, TLS, the
outbound HTTP client, the IP-echo services) modelled as explicit parameters
or result values.
-/

namespace PocketArk

/-! ## Character-list utilities shared by the embeddings -/

/-- Byte-wise leading-segment test on character lists, mirroring the
comparisons performed by Rust's `str` methods. -/
def leadsChars : List Char → List Char → Bool
  | [], _ => true
  | _ :: _, [] => false
  | p :: ps, c :: cs => p == c && leadsChars ps cs

/-- Substring containment on character lists, mirroring Rust `str::contains`
with a string pattern. -/
def containsChars : List Char → List Char → Bool
  | [], pat => leadsChars pat []
  | l@(_ :: rest), pat => leadsChars pat l || containsChars rest pat

/-- `pat` occurs contiguously inside `l`. -/
def infixOf (pat l : List Char) : Prop := ∃ a b, l = a ++ pat ++ b

/-- Substring containment on strings. -/
def strContains (s pat : String) : Bool := containsChars s.data pat.data

/-- Trailing-whitespace removal (the right half of Rust `str::trim`). -/
def trimEnd (l : List Char) : List Char :=
  (l.reverse.dropWhile Char.isWhitespace).reverse

/-- Rust `str::trim` over character lists. -/
def trimChars (l : List Char) : List Char :=
  trimEnd (l.dropWhile Char.isWhitespace)

/-- Accumulator-based whitespace tokenizer mirroring Rust
`str::split_whitespace` (the accumulated word is kept in reverse). -/
def wordsAux : List Char → List Char → List (List Char)
  | [], acc => if acc.isEmpty then [] else [acc.reverse]
  | c :: cs, acc =>
    if c.isWhitespace then
      if acc.isEmpty then wordsAux cs [] else acc.reverse :: wordsAux cs []
    else wordsAux cs (c :: acc)

/-- Rust `str::split_whitespace` over character lists. -/
def words (l : List Char) : List (List Char) := wordsAux l []

/-- Rust `str::split(sep)` over character lists (accumulator kept reversed). -/
def splitOnCharAux (sep : Char) : List Char → List Char → List (List Char)
  | [], acc => [acc.reverse]
  | c :: cs, acc =>
    if c == sep then acc.reverse :: splitOnCharAux sep cs []
    else splitOnCharAux sep cs (c :: acc)

/-- Rust `str::split(sep)` over character lists. -/
def splitOnChar (sep : Char) (l : List Char) : List (List Char) :=
  splitOnCharAux sep l []

/-- Strip one trailing carriage return, as Rust `str::lines` does for lines
terminated by a newline. -/
def stripCR (l : List Char) : List Char :=
  match l.reverse with
  | '\r' :: rest => rest.reverse
  | _ => l

/-- Rust `str::lines`: split on newlines, drop an optional final terminator,
and strip `\r` from every newline-terminated line. -/
def rustLines (l : List Char) : List (List Char) :=
  match (splitOnChar '\n' l).reverse with
  | [] => []
  | last :: rest =>
    let body := rest.reverse.map stripCR
    if last.isEmpty then body else body ++ [last]

/-! ## Hosts-file editing (src/host.rs) -/

/-- The vendor hostname redirected through the hosts file
(`HOST_KEY` in src/constants.rs). -/
def HOST_KEY : List Char := "winter15.gosredirector.ea.com".data

/-- Rust `str::split_once('#')`: the text before the first `#` and the text
after it, or `none` when no `#` occurs. -/
def splitOnceHash : List Char → Option (List Char × List Char)
  | [] => none
  | c :: cs =>
    if c == '#' then some ([], cs)
    else
      match splitOnceHash cs with
      | some (before, after) => some (c :: before, after)
      | none => none

/-- The portion of a line before any `#` character. -/
def takeWhileNotHash (l : List Char) : List Char :=
  l.takeWhile (fun c => !(c == '#'))

/-- `filter_not_host_line` from src/host.rs: returns `true` for lines the
hosts-file rewrite keeps, `false` for redirect lines it removes. -/
def filter_not_host_line (line : List Char) : Bool :=
  let value := trimChars line
  if value.isEmpty || leadsChars ['#'] value || !containsChars value HOST_KEY then
    true
  else
    let value2 :=
      match splitOnceHash value with
      | some (before, _) => trimChars before
      | none => value
    if value2.isEmpty || !containsChars value2 HOST_KEY then
      true
    else
      match words value2 with
      | [] => true
      | [_] => true
      | _ :: second :: _ => !(second == HOST_KEY)

/-- The text transformation performed by `remove_host_entry` in src/host.rs:
keep the lines passing `filter_not_host_line` and join them with newlines. -/
def remove_host_entry (contents : List Char) : List Char :=
  List.intercalate ['\n'] ((rustLines contents).filter filter_not_host_line)

/-- The whitespace tokens of the uncommented portion of a hosts-file line. -/
def uncommentedTokens (line : List Char) : List (List Char) :=
  words (trimChars (takeWhileNotHash (trimChars line)))

/-- The amended keep-predicate: a line is kept unless the second whitespace
token of its uncommented portion equals the vendor hostname. -/
def specKeepsLine (line : List Char) : Bool :=
  !((uncommentedTokens line)[1]? == some HOST_KEY)

/-! ## Shared constants (src/constants.rs) -/

/-- The local redirector server port. -/
def REDIRECTOR_PORT : Nat := 42230

/-- The local proxy main (tunnel) server port. -/
def MAIN_PORT : Nat := 42231

/-- The local qos server port. -/
def QOS_PORT : Nat := 42232

/-! ## QoS service (src/servers/qos.rs) -/

/-- An IPv4 address as four octets. -/
structure Ipv4Addr where
  oct1 : Nat
  oct2 : Nat
  oct3 : Nat
  oct4 : Nat
deriving DecidableEq

/-- `Ipv4Addr::octets`. -/
def Ipv4Addr.octets (a : Ipv4Addr) : List Nat := [a.oct1, a.oct2, a.oct3, a.oct4]

/-- `Ipv4Addr::LOCALHOST`. -/
def Ipv4Addr.localhost : Ipv4Addr := ⟨127, 0, 0, 1⟩

/-- The address family of a socket address. -/
inductive IpKind where
  | v4 (addr : Ipv4Addr)
  | v6
deriving DecidableEq

/-- A source socket address as seen by `recv_from`. -/
structure SockAddr where
  ip : IpKind
  port : Nat
deriving DecidableEq

/-- `u16::to_be_bytes`. -/
def be16 (p : Nat) : List Nat := [p / 256 % 256, p % 256]

/-- `output[start .. start + src.length].copy_from_slice(src)`. -/
def copyFromSlice (buf : List Nat) (start : Nat) (src : List Nat) : List Nat :=
  buf.take start ++ src ++ buf.drop (start + src.length)

/-- The address written into the QoS reply: the public address when the cache
lookup produced one, otherwise the datagram's IPv4 source address, with
127.0.0.1 as the non-IPv4 fallback (the `match public_address().await` block
in src/servers/qos.rs). -/
def qosResolveAddress (src : SockAddr) (publicAddr : Option Ipv4Addr) : Ipv4Addr :=
  match publicAddr with
  | some value => value
  | none =>
    match src.ip with
    | .v4 addr => addr
    | .v6 => Ipv4Addr.localhost

/-- One iteration of the QoS receive loop in `start_server` (src/servers/qos.rs):
writes the received payload, the resolved public address, the big-endian source
port and four zero bytes into the persistent 128-byte output buffer and returns
the new buffer contents.  The datagram passed to `send_to` is `&output`, i.e.
this entire 128-byte buffer, not just the first `payload.length + 10` bytes. -/
def qosStep (output : List Nat) (payload : List Nat) (src : SockAddr)
    (publicAddr : Option Ipv4Addr) : List Nat :=
  let count := payload.length
  let address := qosResolveAddress src publicAddr
  let addrEnd := count + 4
  let portEnd := addrEnd + 2
  let step1 := copyFromSlice output 0 payload
  let step2 := copyFromSlice step1 count address.octets
  let step3 := copyFromSlice step2 addrEnd (be16 src.port)
  copyFromSlice step3 portEnd [0, 0, 0, 0]

/-- The initial contents of the QoS output buffer (`[0u8; 128]`). -/
def qosInitialOutput : List Nat := List.replicate 128 0

/-- The reply the spec's wire contract prescribes:
`request_bytes || ipv4_be(4) || port_be(2) || 0x00000000`. -/
def qosWireContractReply (payload : List Nat) (publicAddr : Ipv4Addr)
    (srcPort : Nat) : List Nat :=
  payload ++ publicAddr.octets ++ be16 srcPort ++ [0, 0, 0, 0]

/-! ## Public-address cache (src/servers/qos.rs, `public_address`) -/

/-- `PublicAddrCache` from src/servers/qos.rs. -/
inductive PublicAddrCache where
  | unset
  | set (value : Ipv4Addr) (expires : Nat)
deriving DecidableEq

/-- `ADDR_CACHE_TIME` (30 minutes), in seconds. -/
def ADDR_CACHE_TIME : Nat := 60 * 30

/-- The outcome of one `reqwest::get` + `response.text()` round trip against
an IP-echo endpoint. -/
inductive ApiOutcome where
  | getErr
  | textErr
  | text (body : String)

/-- One dotted-decimal octet, as accepted by Rust's `Ipv4Addr` parser
(digits only, no leading zeros, value at most 255). -/
def parseOctet (l : List Char) : Option Nat :=
  match l with
  | [] => none
  | c :: cs =>
    if c == '0' && !cs.isEmpty then none
    else if (c :: cs).all Char.isDigit then
      let v := (c :: cs).foldl (fun acc d => acc * 10 + (d.toNat - 48)) 0
      if v ≤ 255 then some v else none
    else none

/-- Rust `str::parse::<Ipv4Addr>()`. -/
def parseIpv4 (l : List Char) : Option Ipv4Addr :=
  match (splitOnChar '.' l).map parseOctet with
  | [some a, some b, some c, some d] => some ⟨a, b, c, d⟩
  | _ => none

/-- The ordered list of IP-echo endpoints queried by `public_address`. -/
def IP_LOOKUP_ADDRESSES : List String :=
  ["https://api.ipify.org/", "https://ipv4.icanhazip.com/"]

/-- The `for address in addresses` loop of `public_address`: try each endpoint
in order, keeping the first response that parses as an IPv4 address after
trimming and removing newlines.  Also counts how many HTTP requests were
issued. -/
def tryAddresses (env : String → ApiOutcome) : List String → Option Ipv4Addr × Nat
  | [] => (none, 0)
  | address :: rest =>
    match env address with
    | .getErr =>
      let r := tryAddresses env rest
      (r.1, r.2 + 1)
    | .textErr =>
      let r := tryAddresses env rest
      (r.1, r.2 + 1)
    | .text body =>
      match parseIpv4 ((trimChars body.data).filter (fun c => !(c == '\n'))) with
      | some parsed => (some parsed, 1)
      | none =>
        let r := tryAddresses env rest
        (r.1, r.2 + 1)

/-- The result of the write-locked section of `public_address`. -/
structure SlowPathResult where
  result : Option Ipv4Addr
  cache : PublicAddrCache
  requests : Nat
deriving DecidableEq

/-- The fast path of `public_address`: under the read lock, return the cached
value when it has not expired (`time.lt(expires)`). -/
def publicAddressFastPath (cached : PublicAddrCache) (now : Nat) : Option Ipv4Addr :=
  match cached with
  | .set value expires => if now < expires then some value else none
  | .unset => none

/-- The write-locked section of `public_address` (src/servers/qos.rs lines
97-139), taking the cache contents observed at write-lock acquisition:
query the IP-echo endpoints in order, fall back to the local address, and on
success overwrite the cache with an expiry 30 minutes from now.  The cache
contents at lock acquisition are never consulted, only overwritten. -/
def publicAddressSlowPath (cached : PublicAddrCache) (now : Nat)
    (env : String → ApiOutcome) (localIp : Option Ipv4Addr) : SlowPathResult :=
  let r := tryAddresses env IP_LOOKUP_ADDRESSES
  let value :=
    match r.1 with
    | none =>
      match localIp with
      | some addr => some addr
      | none => none
    | some v => some v
  match value with
  | none => { result := none, cache := cached, requests := r.2 }
  | some v =>
      { result := some v
        cache := .set v (now + ADDR_CACHE_TIME)
        requests := r.2 }

/-! ## Service startup and bind failure (src/servers/&ast;.rs) -/

/-- What a service's startup does after the bind attempt: either the listener
is running, or the service showed an error dialog and called
`process::exit(code)`. -/
inductive StartOutcome where
  | running
  | reportAndExit (title : String) (text : String) (code : Nat)
deriving DecidableEq

/-- Whether the startup outcome left the service running. -/
def StartOutcome.isRunning : StartOutcome → Bool
  | .running => true
  | .reportAndExit _ _ _ => false

/-- The bind phase of `start_server` in src/servers/qos.rs. -/
def qos_start_server (bind : Except String Unit) : StartOutcome :=
  match bind with
  | .ok _ => .running
  | .error err => .reportAndExit "Failed to start" ("Failed to start main: " ++ err) 1

/-- The bind phase of `start_server` in src/servers/redirector.rs. -/
def redirector_start_server (bind : Except String Unit) : StartOutcome :=
  match bind with
  | .ok _ => .running
  | .error err => .reportAndExit "Failed to start" ("Failed to start http: " ++ err) 1

/-- The bind phase of `start_server` in src/servers/main.rs. -/
def main_start_server (bind : Except String Unit) : StartOutcome :=
  match bind with
  | .ok _ => .running
  | .error err => .reportAndExit "Failed to start" ("Failed to start main: " ++ err) 1

/-- The bind phase of `start_server` in src/servers/http.rs. -/
def http_start_server (bind : Except String Unit) : StartOutcome :=
  match bind with
  | .ok _ => .running
  | .error err => .reportAndExit "Failed to start" ("Failed to start http: " ++ err) 1

/-- Whether a startup outcome terminates the whole process
(`process::exit` ends every task of the shared tokio runtime). -/
def exitsProcess : StartOutcome → Bool
  | .running => false
  | .reportAndExit _ _ _ => true

/-- All four services are joined inside one process (`servers::start`), so the
process survives startup only when no service called `exit`. -/
def processAlive (outcomes : List StartOutcome) : Bool :=
  outcomes.all (fun o => !exitsProcess o)

/-- A service is running only while its own startup succeeded and the shared
process is still alive. -/
def serviceRunning (outcomes : List StartOutcome) (o : StartOutcome) : Bool :=
  processAlive outcomes && o.isRunning

/-! ## Target URLs and the tunnel upgrade (src/api.rs, src/servers/main.rs) -/

/-- `LookupData` from src/api.rs. -/
structure LookupData where
  scheme : String
  host : String
  version : String
  port : Nat
deriving DecidableEq

/-- `create_target_url` from src/api.rs: scheme, "://", host, endpoint —
the port field is never written. -/
def create_target_url (target : LookupData) (endpoint : String) : String :=
  target.scheme ++ "://" ++ target.host ++ endpoint

/-- `UPGRADE_ENDPOINT` from src/servers/main.rs. -/
def UPGRADE_ENDPOINT : String := "/ark/client/upgrade"

/-- The outbound HTTP-Upgrade request built by `handle_client`. -/
structure TunnelUpgradeRequest where
  url : String
  headers : List (String × String)
deriving DecidableEq

/-- `handle_client` from src/servers/main.rs, up to sending the upgrade
request: `none` when the connection is closed early (missing target or
token), otherwise the request sent to the remote server. -/
def handle_client (target : Option LookupData) (token : Option String) :
    Option TunnelUpgradeRequest :=
  match target with
  | none => none
  | some target =>
    match token with
    | none => none
    | some token =>
      let url := create_target_url target UPGRADE_ENDPOINT
      let headers :=
        [("Connection", "Upgrade"), ("Upgrade", "blaze"),
         ("X-Pocket-Ark-Scheme", target.scheme),
         ("X-Pocket-Ark-Port", toString target.port),
         ("X-Pocket-Ark-Auth", token),
         ("X-Pocket-Ark-Host", target.host)]
      some { url := url, headers := headers }

/-! ## Redirector service (src/servers/redirector.rs) -/

/-- A request URI: path plus optional query string. -/
structure Uri where
  path : String
  query : Option String
deriving DecidableEq

/-- `Uri::path_and_query`. -/
def Uri.pathAndQuery (u : Uri) : String :=
  u.path ++
    match u.query with
    | some q => "?" ++ q
    | none => ""

/-- `u32::from_be_bytes`. -/
def u32_from_be_bytes (bytes : List Nat) : Nat :=
  bytes.foldl (fun acc b => acc * 256 + b) 0

/-- An HTTP response produced locally: status, headers, body. -/
structure LocalResponse where
  status : Nat
  headers : List (String × String)
  body : String
deriving DecidableEq

/-- The XML body built by `handle_http` in src/servers/redirector.rs. -/
def redirector_response_body : String :=
  let addr := u32_from_be_bytes [127, 0, 0, 1]
  "<?xml version=\"1.0\" encoding=\"UTF-8\"?>\n    <serverinstanceinfo>\n        <address member=\"0\">\n            <valu>\n                <hostname>localhost</hostname>\n                <ip>" ++
    toString addr ++
    "</ip>\n                <port>" ++
    toString MAIN_PORT ++
    "</port>\n            </valu>\n        </address>\n        <secure>0</secure>\n        <trialservicename></trialservicename>\n        <defaultdnsaddress>0</defaultdnsaddress>\n    </serverinstanceinfo>"

/-- `handle_http` from src/servers/redirector.rs: every request, whatever its
contents, receives the fixed discovery response (status 200 from
`Response::builder()`). -/
def redirector_handle_http (_req : Uri) : LocalResponse :=
  { status := 200
    headers :=
      [("X-BLAZE-COMPONENT", "redirector"),
       ("X-BLAZE-COMMAND", "getServerInstance"),
       ("X-BLAZE-SEQNO", "0"),
       ("Content-Type", "application/xml")]
    body := redirector_response_body }

/-! ## HTTP proxy service (src/servers/http.rs) -/

/-- The XML body built by `server_instance_response` in src/servers/http.rs. -/
def http_server_instance_body : String :=
  let addr := u32_from_be_bytes [127, 0, 0, 1]
  "<?xml version=\"1.0\" encoding=\"UTF-8\"?>\n    <serverinstanceinfo>\n        <address member=\"0\">\n            <valu>\n                <hostname>localhost</hostname>\n                <ip>" ++
    toString addr ++
    "</ip>\n                <port>" ++
    toString MAIN_PORT ++
    "</port>\n            </valu>\n        </address>\n        <secure>0</secure>\n        <trialservicename></trialservicename>\n        <defaultdnsaddress>0</defaultdnsaddress>\n    </serverinstanceinfo>"

/-- `server_instance_response` from src/servers/http.rs. -/
def server_instance_response : LocalResponse :=
  { status := 200
    headers :=
      [("X-BLAZE-COMPONENT", "redirector"),
       ("X-BLAZE-COMMAND", "getServerInstance"),
       ("X-BLAZE-SEQNO", "0"),
       ("Content-Type", "application/xml")]
    body := http_server_instance_body }

/-- A marker for the incoming request body being streamed through. -/
inductive RequestBody where
  | original
deriving DecidableEq

/-- The outbound request assembled by the proxy before `send()`. -/
structure OutboundRequest where
  method : String
  url : String
  headers : List (String × String)
  body : Option RequestBody
deriving DecidableEq

/-- What `handle_http` in src/servers/http.rs does with a request, up to the
network boundary: answer locally or forward an assembled outbound request. -/
inductive HandleHttpStep where
  | respond (response : LocalResponse)
  | forward (request : OutboundRequest)
deriving DecidableEq

/-- The body-bearing-method test from src/servers/http.rs
(`POST || PUT || DELETE || PATCH`). -/
def isBodyMethod (method : String) : Bool :=
  method == "POST" || method == "PUT" || method == "DELETE" || method == "PATCH"

/-- `handle_http` from src/servers/http.rs up to `proxy_req.send()`: serve the
discovery endpoint locally; answer 503 with empty body when no target is set;
otherwise assemble the outbound request (token header when present, then — for
body-bearing methods only — the incoming content-length and content-type
headers and the streamed body). -/
def proxy_handle_http (method : String) (uri : Uri)
    (reqHeaders : List (String × String)) (target : Option LookupData)
    (token : Option String) : HandleHttpStep :=
  if uri.path == "/redirector/getServerInstance" then
    .respond server_instance_response
  else
    match target with
    | none => .respond { status := 503, headers := [], body := "" }
    | some target =>
      let url := create_target_url target uri.pathAndQuery
      let headers : List (String × String) :=
        match token with
        | some token => [("X-Token", token)]
        | none => []
      if isBodyMethod method then
        let headers :=
          match reqHeaders.lookup "content-length" with
          | some length => headers ++ [("content-length", length)]
          | none => headers
        let headers :=
          match reqHeaders.lookup "content-type" with
          | some contentType => headers ++ [("content-type", contentType)]
          | none => headers
        .forward { method := method, url := url, headers := headers, body := some .original }
      else
        .forward { method := method, url := url, headers := headers, body := none }

/-- The URL an outbound proxied request is addressed to, when one is sent. -/
def forwardUrl : HandleHttpStep → Option String
  | .forward r => some r.url
  | .respond _ => none

/-- The header list `handle_http` assembles for a body-bearing outbound
request: the token header when a token is present, then the incoming
content-length and content-type values verbatim when present. -/
def forwardedBodyHeaders (token : Option String)
    (reqHeaders : List (String × String)) : List (String × String) :=
  (match token with
   | some token => [("X-Token", token)]
   | none => []) ++
  (match reqHeaders.lookup "content-length" with
   | some length => [("content-length", length)]
   | none => []) ++
  (match reqHeaders.lookup "content-type" with
   | some contentType => [("content-type", contentType)]
   | none => [])

/-! ## Theorems: character-list utilities -/

theorem leadsChars_iff (p : List Char) : ∀ l : List Char,
    leadsChars p l = true ↔ ∃ t, l = p ++ t := by
  induction p with
  | nil => intro l; simp [leadsChars]
  | cons c cs ih =>
    intro l
    cases l with
    | nil => simp [leadsChars]
    | cons d ds =>
      simp only [leadsChars, Bool.and_eq_true, beq_iff_eq, ih]
      constructor
      · rintro ⟨rfl, t, rfl⟩
        exact ⟨t, rfl⟩
      · rintro ⟨t, h⟩
        cases h
        exact ⟨rfl, t, rfl⟩

theorem containsChars_iff (l pat : List Char) :
    containsChars l pat = true ↔ infixOf pat l := by
  induction l with
  | nil =>
    simp only [containsChars, leadsChars_iff, infixOf]
    constructor
    · rintro ⟨t, h⟩
      exact ⟨[], t, by simpa using h⟩
    · rintro ⟨a, b, h⟩
      cases a with
      | nil => exact ⟨b, by simpa using h⟩
      | cons x xs => simp at h
  | cons c rest ih =>
    simp only [containsChars, Bool.or_eq_true, leadsChars_iff, ih, infixOf]
    constructor
    · rintro (⟨t, h⟩ | ⟨a, b, h⟩)
      · exact ⟨[], t, by simpa using h⟩
      · exact ⟨c :: a, b, by simp [h]⟩
    · rintro ⟨a, b, h⟩
      cases a with
      | nil => exact Or.inl ⟨b, by simpa using h⟩
      | cons x xs =>
        simp only [List.cons_append, List.cons.injEq] at h
        exact Or.inr ⟨xs, b, h.2⟩

theorem infixOf_trans {p q l : List Char} (h1 : infixOf p q) (h2 : infixOf q l) :
    infixOf p l := by
  obtain ⟨a, b, rfl⟩ := h1
  obtain ⟨c, d, rfl⟩ := h2
  exact ⟨c ++ a, b ++ d, by simp⟩

theorem infixOf_takeWhile (q : Char → Bool) (l : List Char) :
    infixOf (l.takeWhile q) l :=
  ⟨[], l.dropWhile q, by simp [List.takeWhile_append_dropWhile]⟩

theorem infixOf_refl (l : List Char) : infixOf l l := ⟨[], [], by simp⟩

theorem trimEnd_append (l : List Char) :
    l = trimEnd l ++ (l.reverse.takeWhile Char.isWhitespace).reverse := by
  have h := List.takeWhile_append_dropWhile (p := Char.isWhitespace) (l := l.reverse)
  calc l = l.reverse.reverse := (List.reverse_reverse l).symm
    _ = (l.reverse.takeWhile Char.isWhitespace ++
          l.reverse.dropWhile Char.isWhitespace).reverse := by rw [h]
    _ = trimEnd l ++ (l.reverse.takeWhile Char.isWhitespace).reverse := by
        rw [List.reverse_append]; rfl

theorem infixOf_trimEnd (l : List Char) : infixOf (trimEnd l) l :=
  ⟨[], (l.reverse.takeWhile Char.isWhitespace).reverse, by
    simpa using trimEnd_append l⟩

theorem infixOf_dropWhile (q : Char → Bool) (l : List Char) :
    infixOf (l.dropWhile q) l :=
  ⟨l.takeWhile q, [], by simp [List.takeWhile_append_dropWhile]⟩

theorem infixOf_trimChars (l : List Char) : infixOf (trimChars l) l :=
  infixOf_trans (infixOf_trimEnd _) (infixOf_dropWhile _ l)

theorem dropWhile_dropWhile (q : Char → Bool) (l : List Char) :
    (l.dropWhile q).dropWhile q = l.dropWhile q := by
  induction l with
  | nil => rfl
  | cons c cs ih =>
    by_cases h : q c
    · simp [List.dropWhile_cons, h, ih]
    · simp [List.dropWhile_cons, h]

theorem trimEnd_idem (l : List Char) : trimEnd (trimEnd l) = trimEnd l := by
  unfold trimEnd
  rw [List.reverse_reverse, dropWhile_dropWhile]

theorem dropWhile_length_le (q : Char → Bool) (l : List Char) :
    (l.dropWhile q).length ≤ l.length := by
  induction l with
  | nil => simp
  | cons c cs ih =>
    by_cases h : q c
    · rw [List.dropWhile_cons, if_pos h]
      exact le_trans ih (by simp)
    · simp [List.dropWhile_cons, h]

theorem dropWhile_trimEnd_of_dropWhile_eq (l : List Char)
    (h : l.dropWhile Char.isWhitespace = l) :
    (trimEnd l).dropWhile Char.isWhitespace = trimEnd l := by
  cases hl : l with
  | nil => simp [trimEnd]
  | cons c cs =>
    have hc : Char.isWhitespace c = false := by
      by_contra hcontra
      have hc' : Char.isWhitespace c = true := by
        cases hcc : Char.isWhitespace c
        · exact absurd hcc hcontra
        · rfl
      rw [hl, List.dropWhile_cons, hc'] at h
      have := congrArg List.length h
      have hle := dropWhile_length_le Char.isWhitespace cs
      simp at this
      omega
    have hpre := trimEnd_append (c :: cs)
    cases hte : trimEnd (c :: cs) with
    | nil => simp
    | cons d ds =>
      rw [hte] at hpre
      have hd : d = c := by
        simpa using congrArg (fun t => t.headD 'x') hpre.symm
      rw [List.dropWhile_cons, hd, hc]
      simp

theorem trimChars_idem (l : List Char) : trimChars (trimChars l) = trimChars l := by
  unfold trimChars
  rw [dropWhile_trimEnd_of_dropWhile_eq _ (dropWhile_dropWhile _ l), trimEnd_idem]

theorem wordsAux_infixOf : ∀ (l acc t : List Char),
    t ∈ wordsAux l acc → infixOf t (acc.reverse ++ l) := by
  intro l
  induction l with
  | nil =>
    intro acc t h
    by_cases hacc : acc.isEmpty
    · simp [wordsAux, hacc] at h
    · simp [wordsAux, hacc] at h
      exact ⟨[], [], by simp [h]⟩
  | cons c cs ih =>
    intro acc t h
    by_cases hws : c.isWhitespace
    · by_cases hacc : acc.isEmpty
      · simp only [wordsAux, hws, hacc, if_true] at h
        have hnil : acc = [] := by
          cases acc
          · rfl
          · simp [List.isEmpty] at hacc
        obtain ⟨a, b, hab⟩ := ih [] t (by simpa using h)
        exact ⟨c :: a, b, by simp_all⟩
      · simp only [wordsAux, hws, hacc, if_true, if_false] at h
        cases h with
        | head => exact ⟨[], c :: cs, by simp⟩
        | tail _ h =>
          obtain ⟨a, b, hab⟩ := ih [] t (by simpa using h)
          exact ⟨acc.reverse ++ c :: a, b, by simp_all⟩
    · simp only [wordsAux, hws, if_false] at h
      obtain ⟨a, b, hab⟩ := ih (c :: acc) t h
      refine ⟨a, b, ?_⟩
      simpa [List.append_assoc] using hab

theorem words_infixOf {l t : List Char} (h : t ∈ words l) : infixOf t l := by
  simpa using wordsAux_infixOf l [] t h

/-! ## Theorems: hosts-file editing -/

theorem splitOnceHash_none {l : List Char} (h : splitOnceHash l = none) :
    takeWhileNotHash l = l := by
  induction l with
  | nil => rfl
  | cons c cs ih =>
    by_cases hc : c == '#'
    · simp [splitOnceHash, hc] at h
    · simp only [splitOnceHash, hc, if_false] at h
      have hrec : splitOnceHash cs = none := by
        cases hcs : splitOnceHash cs with
        | none => rfl
        | some p => rw [hcs] at h; cases p; simp at h
      simp [takeWhileNotHash, List.takeWhile_cons, hc] at ih ⊢
      exact ih hrec

theorem splitOnceHash_some {l before after : List Char}
    (h : splitOnceHash l = some (before, after)) :
    before = takeWhileNotHash l := by
  induction l generalizing before after with
  | nil => simp [splitOnceHash] at h
  | cons c cs ih =>
    by_cases hc : c == '#'
    · simp only [splitOnceHash, hc, if_true, Option.some.injEq] at h
      have hb : before = [] := by
        simpa using congrArg Prod.fst h.symm
      simp [hb, takeWhileNotHash, List.takeWhile_cons, hc]
    · have hred : splitOnceHash (c :: cs) =
          match splitOnceHash cs with
          | some (b, a) => some (c :: b, a)
          | none => none := by
        simp [splitOnceHash, hc]
      cases hcs : splitOnceHash cs with
      | none => rw [hred, hcs] at h; simp at h
      | some p =>
        cases p with
        | mk b a =>
          rw [hred, hcs] at h
          simp only [Option.some.injEq, Prod.mk.injEq] at h
          obtain ⟨hb, _⟩ := h
          rw [← hb, ih hcs]
          simp [takeWhileNotHash, List.takeWhile_cons, hc]

theorem isEmpty_eq_nil {l : List Char} (h : l.isEmpty = true) : l = [] := by
  cases l with
  | nil => rfl
  | cons c cs => simp [List.isEmpty] at h

theorem second_token_not_key {un v : List Char} (hiv : infixOf un v)
    (hco : ¬ containsChars v HOST_KEY = true) :
    ((words un)[1]? == some HOST_KEY) = false := by
  cases hg : (words un)[1]? with
  | none => rfl
  | some t =>
    by_cases ht : t = HOST_KEY
    · exact absurd ((containsChars_iff v HOST_KEY).mpr
        (infixOf_trans (ht ▸ words_infixOf (List.getElem?_mem hg)) hiv)) hco
    · simpa using ht

theorem filter_tail_eq (u : List Char) :
    (if u.isEmpty || !containsChars u HOST_KEY then true
     else
       match words u with
       | [] => true
       | [_] => true
       | _ :: second :: _ => !(second == HOST_KEY)) =
      !((words u)[1]? == some HOST_KEY) := by
  by_cases h4 : u.isEmpty
  · rw [isEmpty_eq_nil h4]
    decide
  · by_cases h5 : containsChars u HOST_KEY
    · simp only [h4, h5, Bool.not_true, Bool.or_false, if_neg]
      simp only [Bool.false_eq_true, if_false]
      cases hw : words u with
      | nil => simp
      | cons w rest =>
        cases rest with
        | nil => simp
        | cons s rest2 => simp
    · have hsec := second_token_not_key (infixOf_refl u) h5
      simp [h4, h5, hsec]

/-- The hosts-file keep-predicate agrees with the amended specification:
a line is removed exactly when the second whitespace token of its
uncommented portion equals the vendor hostname. -/
theorem filter_not_host_line_eq_specKeepsLine (line : List Char) :
    filter_not_host_line line = specKeepsLine line := by
  have hiv : infixOf (trimChars (takeWhileNotHash (trimChars line))) (trimChars line) :=
    infixOf_trans (infixOf_trimChars _) (infixOf_takeWhile _ _)
  simp only [filter_not_host_line, specKeepsLine, uncommentedTokens]
  by_cases h1 : (trimChars line).isEmpty
  · rw [isEmpty_eq_nil h1]
    decide
  · by_cases h2 : leadsChars ['#'] (trimChars line)
    · obtain ⟨t, ht⟩ := (leadsChars_iff ['#'] (trimChars line)).mp h2
      have hhash : trimChars line = '#' :: t := by simpa using ht
      rw [hhash]
      have hkeep : takeWhileNotHash ('#' :: t) = [] := by
        simp [takeWhileNotHash, List.takeWhile_cons]
      rw [hkeep]
      simp [leadsChars, words, wordsAux, trimChars, trimEnd]
    · by_cases h3 : containsChars (trimChars line) HOST_KEY
      · have hcond : ((trimChars line).isEmpty || leadsChars ['#'] (trimChars line) ||
            !containsChars (trimChars line) HOST_KEY) = false := by
          simp [h1, h2, h3]
        rw [hcond]
        simp only [Bool.false_eq_true, if_false]
        cases hsp : splitOnceHash (trimChars line) with
        | none =>
          have hun : trimChars (takeWhileNotHash (trimChars line)) = trimChars line := by
            rw [splitOnceHash_none hsp, trimChars_idem]
          rw [hun]
          exact filter_tail_eq (trimChars line)
        | some p =>
          cases p with
          | mk b a =>
            rw [splitOnceHash_some hsp]
            exact filter_tail_eq (trimChars (takeWhileNotHash (trimChars line)))
      · have hsec := second_token_not_key hiv h3
        simp [h1, h2, h3, hsec]

/-! ## Theorems: QoS buffer writes -/

theorem length_copyFromSlice (buf src : List Nat) (start : Nat)
    (h : start + src.length ≤ buf.length) :
    (copyFromSlice buf start src).length = buf.length := by
  simp [copyFromSlice]
  omega

theorem getElem?_copyFromSlice_ge (buf src : List Nat) (start i : Nat)
    (hstart : start ≤ buf.length) (hi : start + src.length ≤ i) :
    (copyFromSlice buf start src)[i]? = buf[i]? := by
  unfold copyFromSlice
  have hlen : (buf.take start ++ src).length = start + src.length := by
    simp
    omega
  rw [List.getElem?_append_right (by rw [hlen]; omega), hlen, List.getElem?_drop]
  congr 1
  omega

theorem qosWrite_length_tail (output payload ab pb : List Nat)
    (hout : output.length = 128) (hcount : payload.length ≤ 64)
    (hab : ab.length = 4) (hpb : pb.length = 2) :
    (copyFromSlice (copyFromSlice (copyFromSlice (copyFromSlice output 0 payload)
        payload.length ab) (payload.length + 4) pb)
        (payload.length + 4 + 2) [0, 0, 0, 0]).length = 128 ∧
    ∀ i, payload.length + 10 ≤ i →
      (copyFromSlice (copyFromSlice (copyFromSlice (copyFromSlice output 0 payload)
          payload.length ab) (payload.length + 4) pb)
          (payload.length + 4 + 2) [0, 0, 0, 0])[i]? = output[i]? := by
  have l1 : (copyFromSlice output 0 payload).length = 128 := by
    rw [length_copyFromSlice _ _ _ (by omega)]
    exact hout
  have l2 : (copyFromSlice (copyFromSlice output 0 payload) payload.length ab).length = 128 := by
    rw [length_copyFromSlice _ _ _ (by rw [l1, hab]; omega)]
    exact l1
  have l3 : (copyFromSlice (copyFromSlice (copyFromSlice output 0 payload)
      payload.length ab) (payload.length + 4) pb).length = 128 := by
    rw [length_copyFromSlice _ _ _ (by rw [l2, hpb]; omega)]
    exact l2
  constructor
  · rw [length_copyFromSlice _ _ _ (by rw [l3]; simp; omega)]
    exact l3
  · intro i hi
    rw [getElem?_copyFromSlice_ge _ _ _ _ (by rw [l3]; omega) (by simp; omega),
      getElem?_copyFromSlice_ge _ _ _ _ (by rw [l2]; omega) (by rw [hpb]; omega),
      getElem?_copyFromSlice_ge _ _ _ _ (by rw [l1]; omega) (by rw [hab]; omega),
      getElem?_copyFromSlice_ge _ _ _ _ (by rw [hout]; omega) (by omega)]

/-! ## Theorems: the address-cache slow path -/

theorem tryAddresses_requests_pos (env : String → ApiOutcome) (a : String)
    (rest : List String) : 1 ≤ (tryAddresses env (a :: rest)).2 := by
  unfold tryAddresses
  cases env a with
  | getErr => simp
  | textErr => simp
  | text body =>
    cases hp : parseIpv4 ((trimChars body.data).filter (fun c => !(c == '\n'))) with
    | none => simp [hp]
    | some parsed => simp [hp]

theorem publicAddressSlowPath_requests (cached : PublicAddrCache) (now : Nat)
    (env : String → ApiOutcome) (localIp : Option Ipv4Addr) :
    (publicAddressSlowPath cached now env localIp).requests =
      (tryAddresses env IP_LOOKUP_ADDRESSES).2 := by
  unfold publicAddressSlowPath
  rcases htry : tryAddresses env IP_LOOKUP_ADDRESSES with ⟨v, n⟩
  cases v with
  | none => cases localIp <;> simp [htry]
  | some w => simp [htry]

theorem publicAddressSlowPath_result_ignores_cache (cached cached' : PublicAddrCache)
    (now : Nat) (env : String → ApiOutcome) (localIp : Option Ipv4Addr) :
    (publicAddressSlowPath cached now env localIp).result =
      (publicAddressSlowPath cached' now env localIp).result := by
  unfold publicAddressSlowPath
  rcases htry : tryAddresses env IP_LOOKUP_ADDRESSES with ⟨v, n⟩
  cases v with
  | none => cases localIp <;> simp [htry]
  | some w => simp [htry]

/-! ## Claim theorems -/

set_option maxRecDepth 4096 in
/-- C1 (code bug): at the failing input — empty payload from 1.2.3.4:5000 on a
freshly started server with public address 1.2.3.4 — the datagram handed to
`send_to` is the whole 128-byte buffer: its first 10 bytes match the wire
contract `request_bytes || ipv4_be || port_be || 0x00000000`, but 118 stale
buffer bytes follow, so the reply is not the contract's length(P)+10 bytes. -/
theorem c1_qos_reply_exceeds_wire_contract :
    (qosStep qosInitialOutput [] ⟨.v4 ⟨1, 2, 3, 4⟩, 5000⟩ (some ⟨1, 2, 3, 4⟩)).length = 128 ∧
    (qosStep qosInitialOutput [] ⟨.v4 ⟨1, 2, 3, 4⟩, 5000⟩ (some ⟨1, 2, 3, 4⟩)).take 10 =
      qosWireContractReply [] ⟨1, 2, 3, 4⟩ 5000 ∧
    (qosWireContractReply [] ⟨1, 2, 3, 4⟩ 5000).length = 10 ∧
    qosStep qosInitialOutput [] ⟨.v4 ⟨1, 2, 3, 4⟩, 5000⟩ (some ⟨1, 2, 3, 4⟩) ≠
      qosWireContractReply [] ⟨1, 2, 3, 4⟩ 5000 := by
  refine ⟨by decide, by decide, by decide, by decide⟩

/-- C2 counterexample: a hosts line whose first whitespace-tokenized field is
the vendor hostname is preserved unchanged by `remove_host_entry`, refuting
the claim that exactly the lines with the hostname as first field are
removed. -/
theorem c2_first_field_line_not_removed :
    (uncommentedTokens ("winter15.gosredirector.ea.com 127.0.0.1".data))[0]? =
      some HOST_KEY ∧
    remove_host_entry ("winter15.gosredirector.ea.com 127.0.0.1".data) =
      "winter15.gosredirector.ea.com 127.0.0.1".data ∧
    (uncommentedTokens ("127.0.0.1 winter15.gosredirector.ea.com".data))[0]? ≠
      some HOST_KEY ∧
    remove_host_entry ("127.0.0.1 winter15.gosredirector.ea.com".data) = [] := by
  refine ⟨by decide, by decide, by decide, by decide⟩

/-- C2 (amended): `remove_host_entry` removes exactly those lines whose
uncommented, whitespace-tokenized SECOND field equals the vendor hostname,
preserving every other line (blank lines, comments, and lines mentioning the
hostname only inside a comment or in another position). -/
theorem c2_remove_host_entry_removes_second_field_lines (contents : List Char) :
    remove_host_entry contents =
      List.intercalate ['\n'] ((rustLines contents).filter specKeepsLine) := by
  unfold remove_host_entry
  congr 1
  exact List.filter_congr fun x _ => filter_not_host_line_eq_specKeepsLine x

/-- C3 counterexample: when the QoS service fails to bind, its startup shows
the error dialog and calls `process::exit(1)`; with the other three services
having bound successfully, the shared process is dead and the redirector
service is no longer running — the failure is not contained to the failing
service. -/
theorem c3_bind_failure_not_contained :
    qos_start_server (.error "address in use") =
      .reportAndExit "Failed to start" "Failed to start main: address in use" 1 ∧
    serviceRunning
        [main_start_server (.ok ()), qos_start_server (.error "address in use"),
         redirector_start_server (.ok ()), http_start_server (.ok ())]
        (redirector_start_server (.ok ())) = false := by
  refine ⟨by decide, by decide⟩

/-- C3 (amended): a bind failure in any one of the four services is reported
to the operator through an error dialog, after which `process::exit(1)` runs,
terminating the whole process — and with it every other service — rather than
only the failing service. -/
theorem c3_bind_failure_reported_then_exits (err : String) (others : List StartOutcome) :
    qos_start_server (.error err) =
      .reportAndExit "Failed to start" ("Failed to start main: " ++ err) 1 ∧
    redirector_start_server (.error err) =
      .reportAndExit "Failed to start" ("Failed to start http: " ++ err) 1 ∧
    main_start_server (.error err) =
      .reportAndExit "Failed to start" ("Failed to start main: " ++ err) 1 ∧
    http_start_server (.error err) =
      .reportAndExit "Failed to start" ("Failed to start http: " ++ err) 1 ∧
    processAlive (qos_start_server (.error err) :: others) = false ∧
    ∀ o, serviceRunning (qos_start_server (.error err) :: others) o = false :=
  ⟨rfl, rfl, rfl, rfl, rfl, fun _ => rfl⟩

/-- C4 counterexample: with the cache already refreshed (valid until time 100)
at write-lock acquisition and the current time 50, the slow path still issues
an external request, returns the freshly fetched address and overwrites the
refreshed cache entry, instead of returning the refreshed value with no
external request. -/
theorem c4_slow_path_requeries_fresh_cache :
    50 < 100 ∧
    publicAddressSlowPath (.set ⟨9, 9, 9, 9⟩ 100) 50 (fun _ => .text "1.2.3.4") none =
      { result := some ⟨1, 2, 3, 4⟩, cache := .set ⟨1, 2, 3, 4⟩ 1850, requests := 1 } ∧
    ¬ (publicAddressSlowPath (.set ⟨9, 9, 9, 9⟩ 100) 50 (fun _ => .text "1.2.3.4") none =
        { result := some ⟨9, 9, 9, 9⟩, cache := .set ⟨9, 9, 9, 9⟩ 100, requests := 0 }) := by
  refine ⟨by decide, by decide, by decide⟩

/-- C4 (amended): the exclusive section of `public_address` never re-checks
expiry: whatever the cache holds when the write lock is acquired, at least one
external IP-echo request is issued, and the returned value is computed
independently of the held cache contents — concurrent expirers are serialized
by the lock but each performs its own recomputation. -/
theorem c4_slow_path_never_rechecks (cached cached' : PublicAddrCache) (now : Nat)
    (env : String → ApiOutcome) (localIp : Option Ipv4Addr) :
    1 ≤ (publicAddressSlowPath cached now env localIp).requests ∧
    (publicAddressSlowPath cached now env localIp).result =
      (publicAddressSlowPath cached' now env localIp).result := by
  constructor
  · rw [publicAddressSlowPath_requests]
    exact tryAddresses_requests_pos env _ _
  · exact publicAddressSlowPath_result_ignores_cache cached cached' now env localIp

/-- C5 counterexample: a POST carrying content-length, content-type and
content-encoding headers, with a target set, is forwarded with only the
content-length and content-type headers — the content-encoding header is
absent from the outbound request. -/
theorem c5_content_encoding_not_forwarded :
    proxy_handle_http "POST" ⟨"/x", none⟩
        [("content-length", "10"), ("content-type", "application/json"),
         ("content-encoding", "gzip")]
        (some ⟨"https", "example.com", "1.0", 8080⟩) none =
      .forward
        { method := "POST"
          url := "https://example.com/x"
          headers := [("content-length", "10"), ("content-type", "application/json")]
          body := some .original } ∧
    ("content-encoding", "gzip") ∈
      [(("content-length" : String), ("10" : String)),
       ("content-type", "application/json"), ("content-encoding", "gzip")] ∧
    ([(("content-length" : String), ("10" : String)),
      ("content-type", "application/json")].lookup "content-encoding") = none := by
  refine ⟨by decide, by decide, by decide⟩

/-- C5 (amended): for body-bearing methods (POST/PUT/PATCH/DELETE) with a
target set and a non-discovery path, the outbound request carries the
incoming content-length and content-type values verbatim when present plus
the unmodified body, but the content-encoding header is never forwarded. -/
theorem c5_body_method_header_forwarding (method : String) (uri : Uri)
    (reqHeaders : List (String × String)) (target : LookupData)
    (token : Option String) (hm : isBodyMethod method = true)
    (hp : uri.path ≠ "/redirector/getServerInstance") :
    proxy_handle_http method uri reqHeaders (some target) token =
      .forward
        { method := method
          url := create_target_url target uri.pathAndQuery
          headers := forwardedBodyHeaders token reqHeaders
          body := some .original } ∧
    (forwardedBodyHeaders token reqHeaders).lookup "content-encoding" = none := by
  have hp' : (uri.path == "/redirector/getServerInstance") = false := by
    simpa using hp
  constructor
  · simp only [proxy_handle_http, hp', Bool.false_eq_true, if_false, hm, if_true,
      forwardedBodyHeaders]
    cases token <;>
      cases hcl : reqHeaders.lookup "content-length" <;>
        cases hct : reqHeaders.lookup "content-type" <;>
          simp [hcl, hct]
  · simp only [forwardedBodyHeaders]
    cases token <;>
      cases hcl : reqHeaders.lookup "content-length" <;>
        cases hct : reqHeaders.lookup "content-type" <;>
          simp [List.lookup]

/-- C5 witness: the amended theorem applied to a concrete POST request. -/
theorem c5_body_method_header_forwarding_witness :
    isBodyMethod "POST" = true ∧
    (Uri.mk "/gaw/auth" none).path ≠ "/redirector/getServerInstance" ∧
    (proxy_handle_http "POST" ⟨"/gaw/auth", none⟩ [("content-length", "10")]
        (some ⟨"https", "h", "1.0", 443⟩) none =
      .forward
        { method := "POST"
          url := create_target_url ⟨"https", "h", "1.0", 443⟩
              (Uri.pathAndQuery ⟨"/gaw/auth", none⟩)
          headers := forwardedBodyHeaders none [("content-length", "10")]
          body := some .original } ∧
    (forwardedBodyHeaders none [("content-length", "10")]).lookup "content-encoding" =
      none) :=
  ⟨by decide, by decide,
    c5_body_method_header_forwarding "POST" ⟨"/gaw/auth", none⟩
      [("content-length", "10")] ⟨"https", "h", "1.0", 443⟩ none (by decide) (by decide)⟩

/-- C6: `create_target_url` concatenates scheme, "://", host and the endpoint;
the target's port field never influences the result, so the tunnel-upgrade
request of `handle_client` and the forwarded requests of `handle_http` are
addressed without the selected server's port (hence to the scheme's default
port). -/
theorem c6_create_target_url_omits_port (target : LookupData) (endpoint : String)
    (p : Nat) (token : String) (method : String) (uri : Uri)
    (reqHeaders : List (String × String)) (tok : Option String) :
    create_target_url target endpoint =
      target.scheme ++ "://" ++ target.host ++ endpoint ∧
    create_target_url { target with port := p } endpoint =
      create_target_url target endpoint ∧
    (handle_client (some target) (some token)).map TunnelUpgradeRequest.url =
      some (target.scheme ++ "://" ++ target.host ++ UPGRADE_ENDPOINT) ∧
    forwardUrl (proxy_handle_http method uri reqHeaders (some { target with port := p }) tok) =
      forwardUrl (proxy_handle_http method uri reqHeaders (some target) tok) := by
  refine ⟨rfl, rfl, rfl, ?_⟩
  by_cases hpath : uri.path == "/redirector/getServerInstance"
  · simp [proxy_handle_http, hpath]
  · simp only [proxy_handle_http, hpath, Bool.false_eq_true, if_false]
    cases tok <;> by_cases hm : isBodyMethod method <;>
      cases hcl : reqHeaders.lookup "content-length" <;>
        cases hct : reqHeaders.lookup "content-type" <;>
          simp [hm, hcl, hct, forwardUrl, create_target_url]

/-- C7: a request whose path is the discovery endpoint is answered locally by
the HTTP proxy with exactly the response the redirector service produces for
any request — same status, same four headers, same XML body bytes. -/
theorem c7_discovery_matches_redirector (method : String) (query : Option String)
    (reqHeaders : List (String × String)) (target : Option LookupData)
    (token : Option String) (req : Uri) :
    proxy_handle_http method ⟨"/redirector/getServerInstance", query⟩ reqHeaders
        target token = .respond (redirector_handle_http req) := by
  rfl

/-- C8: the response the redirector service sends on every connection contains
hostname localhost, the ip element 2130706433 (127.0.0.1 as a big-endian
32-bit integer), the port element 42231 (the configured tunnel port
MAIN_PORT), and carries the four fixed headers. -/
theorem c8_redirector_response_contents (req : Uri) :
    strContains (redirector_handle_http req).body "<hostname>localhost</hostname>" = true ∧
    strContains (redirector_handle_http req).body "<ip>2130706433</ip>" = true ∧
    u32_from_be_bytes [127, 0, 0, 1] = 2130706433 ∧
    strContains (redirector_handle_http req).body "<port>42231</port>" = true ∧
    MAIN_PORT = 42231 ∧
    (redirector_handle_http req).headers =
      [("X-BLAZE-COMPONENT", "redirector"), ("X-BLAZE-COMMAND", "getServerInstance"),
       ("X-BLAZE-SEQNO", "0"), ("Content-Type", "application/xml")] := by
  have hb : (redirector_handle_http req).body = redirector_response_body := rfl
  have hh : (redirector_handle_http req).headers =
      [("X-BLAZE-COMPONENT", "redirector"), ("X-BLAZE-COMMAND", "getServerInstance"),
       ("X-BLAZE-SEQNO", "0"), ("Content-Type", "application/xml")] := rfl
  rw [hb, hh]
  refine ⟨by decide, by decide, by decide, by decide, by decide, rfl⟩

/-- C9 counterexample: with no target set, a GET for the discovery path
/redirector/getServerInstance is answered with the full discovery response
(status 200 and a non-empty body), not 503 with an empty body. -/
theorem c9_discovery_get_not_503 :
    proxy_handle_http "GET" ⟨"/redirector/getServerInstance", none⟩ [] none none =
      .respond server_instance_response ∧
    server_instance_response.status = 200 ∧
    server_instance_response.body ≠ "" := by
  refine ⟨rfl, rfl, by decide⟩

/-- C9 (amended): every GET whose path is not the discovery endpoint,
received while no target is set, is answered 503 Service Unavailable with an
empty body. -/
theorem c9_get_without_target_503 (uri : Uri) (reqHeaders : List (String × String))
    (token : Option String) (hp : uri.path ≠ "/redirector/getServerInstance") :
    proxy_handle_http "GET" uri reqHeaders none token =
      .respond { status := 503, headers := [], body := "" } := by
  have hp' : (uri.path == "/redirector/getServerInstance") = false := by
    simpa using hp
  simp [proxy_handle_http, hp']

/-- C9 witness: the amended theorem applied to a concrete GET request. -/
theorem c9_get_without_target_503_witness :
    (Uri.mk "/gaw/auth" none).path ≠ "/redirector/getServerInstance" ∧
    proxy_handle_http "GET" ⟨"/gaw/auth", none⟩ [] none none =
      .respond { status := 503, headers := [], body := "" } :=
  ⟨by decide, c9_get_without_target_503 ⟨"/gaw/auth", none⟩ [] none (by decide)⟩

set_option maxRecDepth 8192 in
/-- C10: every reply datagram is the entire 128-byte persistent buffer, the
bytes past the structured prefix equal the buffer's previous contents, and
concretely a reply to one sender carries payload bytes written while serving
an earlier, different sender. -/
theorem c10_qos_reply_carries_stale_bytes (output payload : List Nat)
    (src : SockAddr) (publicAddr : Option Ipv4Addr)
    (hout : output.length = 128) (hcount : payload.length ≤ 64) :
    (qosStep output payload src publicAddr).length = 128 ∧
    (∀ i, payload.length + 10 ≤ i →
      (qosStep output payload src publicAddr)[i]? = output[i]?) ∧
    (qosStep
        (qosStep qosInitialOutput (List.replicate 20 7) ⟨.v4 ⟨1, 1, 1, 1⟩, 1000⟩
          (some ⟨8, 8, 8, 8⟩))
        [9] ⟨.v4 ⟨2, 2, 2, 2⟩, 2000⟩ (some ⟨8, 8, 8, 8⟩))[11]? = some 7 := by
  have hmain := qosWrite_length_tail output payload
      (qosResolveAddress src publicAddr).octets (be16 src.port) hout hcount rfl rfl
  exact ⟨hmain.1, hmain.2, by decide⟩

set_option maxRecDepth 8192 in
/-- C10 witness: the theorem applied to the initial buffer and an empty
payload. -/
theorem c10_qos_reply_carries_stale_bytes_witness :
    qosInitialOutput.length = 128 ∧
    ([] : List Nat).length ≤ 64 ∧
    ((qosStep qosInitialOutput [] ⟨.v4 ⟨1, 2, 3, 4⟩, 5000⟩ none).length = 128 ∧
    (∀ i, ([] : List Nat).length + 10 ≤ i →
      (qosStep qosInitialOutput [] ⟨.v4 ⟨1, 2, 3, 4⟩, 5000⟩ none)[i]? =
        qosInitialOutput[i]?) ∧
    (qosStep
        (qosStep qosInitialOutput (List.replicate 20 7) ⟨.v4 ⟨1, 1, 1, 1⟩, 1000⟩
          (some ⟨8, 8, 8, 8⟩))
        [9] ⟨.v4 ⟨2, 2, 2, 2⟩, 2000⟩ (some ⟨8, 8, 8, 8⟩))[11]? = some 7) :=
  ⟨by decide, by decide,
    c10_qos_reply_carries_stale_bytes qosInitialOutput [] ⟨.v4 ⟨1, 2, 3, 4⟩, 5000⟩ none
      (by decide) (by decide)⟩

end PocketArk
